import Mathlib

/-!
Shallow embedding of `twitchbot.go` (package `twitchbot`), a minimal
Twitch IRC chat bot.  Strings are modelled as `List Char`; the transport
connection is modelled by the sequence of byte strings written to it and,
where the claims need it, by an explicit `Option ConnState` field (Go's
`net.Conn` interface field `bb.conn`, which is `nil` until a successful
`net.Dial`).  Side effects that the claims talk about (writes to the
connection, `time.Sleep`, `Disconnect`) are recorded as explicit events;
logging via `fmt.Printf` is an external observability channel and is not
modelled.
-/

namespace TwitchBot

/-- Go's regexp `\w` character class: `[0-9A-Za-z_]` (RE2, ASCII). -/
def isWordChar (c : Char) : Bool :=
  c.isAlphanum || c == '_'

/-- Maximal run of `\w` characters at the head of the input, together with
the rest of the input.  Models a greedy `\w+`/`\w*` scan; in `msgRegex`
every `\w+` is followed by a non-word character (or end of input), so the
greedy maximal-munch scan is exactly the regex backtracking semantics. -/
def takeWordRun : List Char → List Char × List Char
  | [] => ([], [])
  | c :: cs =>
    if isWordChar c then
      let p := takeWordRun cs
      (c :: p.1, p.2)
    else
      ([], c :: cs)

/-- Strip an expected literal from the head of the input, returning the
rest on success.  Models a literal fragment of the regex. -/
def stripLit : List Char → List Char → Option (List Char)
  | [], rest => some rest
  | _ :: _, [] => none
  | p :: ps, c :: cs => if c = p then stripLit ps cs else none

/-- Result of `msgRegex.FindStringSubmatch`: capture groups 1 (username),
2 (message type) and 3 (message body; `[]` when the optional trailing
segment is absent, as Go returns `""` for an unmatched group). -/
structure MsgMatch where
  userName : List Char
  msgType : List Char
  msg : List Char
deriving DecidableEq

/-- The literal message type captured by group 2 of `msgRegex`. -/
def privmsgType : List Char := "PRIVMSG".toList

/-- Consume one expected literal character at the head of the input. -/
def expectChar (c : Char) : List Char → Option (List Char)
  | [] => none
  | d :: r => if d = c then some r else none

/-- The trailing `(?: :(.*))?$` of `msgRegex` at the position right after
the channel's `\w+`: either the end of the line (optional group absent,
group 3 reported as the empty string, as Go does for an unmatched group),
or the literal ` :` followed by group 3 `(.*)` running to the end of the
line (`.` never matches a newline). -/
def parseTail (u rest : List Char) : Option MsgMatch :=
  if rest = [] then some ⟨u, privmsgType, []⟩
  else
    (expectChar ' ' rest).bind fun r1 =>
    (expectChar ':' r1).bind fun body =>
    if '\n' ∈ body then none else some ⟨u, privmsgType, body⟩

/-- Embedding of
`msgRegex = regexp.MustCompile("^:(\\w+)!\\w+@\\w+\\.tmi\\.twitch\\.tv (PRIVMSG) #\\w+(?: :(.*))?$")`
applied via `FindStringSubmatch`: `none` when the line does not match,
otherwise the three capture groups.  Each `\w+` is parsed by greedy
maximal munch (`takeWordRun`), which agrees with the regex's backtracking
because every `\w+` in the pattern is followed by a non-word character or
the end of the line; the pattern is anchored at both ends. -/
def msgRegexFind (line : List Char) : Option MsgMatch :=
  (expectChar ':' line).bind fun r0 =>
  if (takeWordRun r0).1 = [] then none else
  (expectChar '!' (takeWordRun r0).2).bind fun r1 =>
  if (takeWordRun r1).1 = [] then none else
  (expectChar '@' (takeWordRun r1).2).bind fun r2 =>
  if (takeWordRun r2).1 = [] then none else
  (stripLit ".tmi.twitch.tv PRIVMSG #".toList (takeWordRun r2).2).bind fun r3 =>
  if (takeWordRun r3).1 = [] then none else
  parseTail (takeWordRun r0).1 (takeWordRun r3).2

/-- The exact keep-alive probe line compared against in `HandleChat`. -/
def pingLine : List Char := "PING :tmi.twitch.tv".toList

/-- The exact keep-alive reply bytes written by `HandleChat`. -/
def pongBytes : List Char := "PONG: tmi.twitch.tv\r\n".toList

/-- The shutdown command token recognised in `HandleChat`. -/
def shutdownCmd : List Char := "!tbdown".toList

/-- The farewell message passed to `Say` on shutdown. -/
def farewellMsg : List Char := "goodbye".toList

/-- The single protocol line written by `Say`:
`fmt.Sprintf("PRIVMSG #%s %s\r\n", bb.Channel, msg)`. -/
def sayLine (channel msg : List Char) : List Char :=
  "PRIVMSG #".toList ++ channel ++ (' ' :: msg) ++ "\r\n".toList

/-- Errors surfaced by `Say`: the `BasicBot.Say: msg was empty` error, or
the transport write error returned unchanged (transport errors are
abstracted as natural-number codes). -/
inductive SayOutcome where
  | emptyMessage
  | transport (e : Nat)
deriving DecidableEq

/-- Embedding of `BasicBot.Say`: given the message and the result the
transport would return for a write (`none` = write succeeds, `some e` =
write fails with error `e`), returns the list of byte strings written to
the connection and the error result of `Say`.  The empty-message check
happens before any write; a write error is returned to the caller
unchanged, with no retry. -/
def say (channel msg : List Char) (writeErr : Option Nat) :
    List (List Char) × Option SayOutcome :=
  if msg = [] then ([], some .emptyMessage)
  else ([sayLine channel msg], writeErr.map .transport)

/-- Observable actions of one `HandleChat` loop iteration. -/
inductive Event where
  | writeConn (bytes : List Char)
  | disconnectEv
  | sleepMsg
deriving DecidableEq

/-- How one `HandleChat` loop iteration ends: continue looping, return
`nil` (clean shutdown), or return the read-failure error. -/
inductive HCOutcome where
  | loop
  | retNil
  | retErr
deriving DecidableEq

/-- Result of `tp.ReadLine()` for one iteration. -/
inductive ReadResult where
  | ok (line : List Char)
  | err
deriving DecidableEq

/-- Embedding of one iteration of the `for` loop in `BasicBot.HandleChat`,
given the configured channel name and the result of `tp.ReadLine()`.
Returns the events of the iteration, in order, and how the iteration ends.
On read failure: `Disconnect` and return an error.  On the exact ping
line: write the pong reply and `continue` (skipping the `time.Sleep`).
Otherwise classify with `msgRegexFind`; on a `PRIVMSG` match whose
username equals the channel and whose body is the shutdown token, call
`Say("goodbye")` (whose ignored write puts `sayLine` on the wire),
`Disconnect`, and return `nil`; every other line falls through to
`time.Sleep(bb.MsgRate)` and loops. -/
def handleChatStep (channel : List Char) : ReadResult → List Event × HCOutcome
  | .err => ([.disconnectEv], .retErr)
  | .ok line =>
    if line = pingLine then
      ([.writeConn pongBytes], .loop)
    else
      match msgRegexFind line with
      | some m =>
        if m.msgType = privmsgType then
          if m.userName = channel then
            if m.msg = shutdownCmd then
              ([.writeConn (sayLine channel farewellMsg), .disconnectEv], .retNil)
            else ([.sleepMsg], .loop)
          else ([.sleepMsg], .loop)
        else ([.sleepMsg], .loop)
      | none => ([.sleepMsg], .loop)

/-- State of a live `net.Conn` transport stream. -/
inductive ConnState where
  | opened
  | closed
deriving DecidableEq

/-- `conn.Close()` on a live `net.Conn` value: on an open connection it
succeeds; on an already-closed connection it returns a "use of closed
network connection" error (abstracted as error code `1`) and the
connection stays closed. -/
def closeConn : ConnState → Option Nat × ConnState
  | .opened => (none, .closed)
  | .closed => (some 1, .closed)

/-- How a call of `Disconnect` ends: a normal return, or a runtime panic
(nil pointer dereference from calling a method on Go's nil interface). -/
inductive CallOutcome where
  | returned
  | panicked
deriving DecidableEq

/-- Embedding of `BasicBot.Disconnect` acting on the `bb.conn` field
(`none` = the nil `net.Conn` interface, no handle).  The body is the
unconditional `bb.conn.Close()`: on a nil connection this is a method
call on a nil interface, which panics; otherwise `Close` runs and its
error result is discarded (`Disconnect` has no return value). -/
def disconnect : Option ConnState → CallOutcome × Option ConnState
  | none => (.panicked, none)
  | some s => (.returned, some (closeConn s).2)

/-- Embedding of `BasicBot.Connect` acting on `bb.conn`: the assignment
`bb.conn, err = net.Dial(...)` stores the dial result into `bb.conn`
regardless of the previous value — a live connection on success, the nil
interface on failure (`net.Dial` returns a nil `Conn` with its error).
On failure `Connect` only prints a log line; it neither panics nor
returns an error. -/
def connect (dialOk : Bool) (_conn : Option ConnState) : Option ConnState :=
  if dialOk then some .opened else none

/-- The three byte strings passed to `bb.conn.Write` by
`BasicBot.JoinChannel`, in program order: `PASS`, then `NICK`, then
`JOIN`.  No read from the connection occurs and no write error is
inspected. -/
def joinChannelWrites (pass nick channel : List Char) : List (List Char) :=
  [ "PASS ".toList ++ pass ++ "\r\n".toList,
    "NICK ".toList ++ nick ++ "\r\n".toList,
    "JOIN #".toList ++ channel ++ "\r\n".toList ]

/-- Prepend a character to the first line of a split result. -/
def consHead (c : Char) : List (List Char) → List (List Char)
  | [] => [[c]]
  | l :: ls => (c :: l) :: ls

/-- Split a byte stream at every CRLF pair, to read back which
CRLF-terminated protocol lines a sequence of writes put on the wire. -/
def splitCRLF : List Char → List (List Char)
  | [] => [[]]
  | [c] => [[c]]
  | c1 :: c2 :: rest =>
    if c1 = '\r' ∧ c2 = '\n' then [] :: splitCRLF rest
    else consHead c1 (splitCRLF (c2 :: rest))

/-- Result of `json.Decoder.Decode` on the credentials file contents:
a decoded password, bare `io.EOF` (e.g. an empty file), or any other
decode error (abstracted as a code). -/
inductive DecodeResult where
  | ok (password : List Char)
  | eof
  | fail (e : Nat)
deriving DecidableEq

/-- The `OAuthCred` struct: its Go zero value has `Password == ""`. -/
structure OAuthCred where
  password : List Char
deriving DecidableEq

/-- Embedding of `BasicBot.ReadCredentials`, with `ioutil.ReadFile`
abstracted as `fileRes` and JSON decoding as `dec`.  On a file-read
error, return it with `bb.Credentials` still nil.  Otherwise set
`bb.Credentials = &OAuthCred\x7b\x7d` (zero value, empty password) and
decode into it: a decode error other than `io.EOF` is returned;
`io.EOF` is swallowed (`nil != err && io.EOF != err`) and the function
returns `nil` with the zero-value credentials in place. -/
def readCredentials (fileRes : Except Nat (List Char))
    (dec : List Char → DecodeResult) : Option Nat × Option OAuthCred :=
  match fileRes with
  | .error e => (some e, none)
  | .ok contents =>
    match dec contents with
    | .ok pw => (none, some ⟨pw⟩)
    | .eof => (none, some ⟨[]⟩)
    | .fail e => (some e, some ⟨[]⟩)

/-- Observable steps of the `BasicBot.Start` driver, in order.
`credFail e` is the reported credential error followed by the
`Aborting...` return; `nilPanic` is the nil-interface method call that
happens when `JoinChannel` writes to a nil `bb.conn`; `sleepRetry` is the
fixed `time.Sleep(1000 * time.Millisecond)` before a reconnect;
`reportError e` is the `fmt.Println(err)` of the `HandleChat` error. -/
inductive DriverStep where
  | credFail (e : Nat)
  | connectAttempt (ok : Bool)
  | joinWrite
  | nilPanic
  | handle (res : Option Nat)
  | sleepRetry
  | reportError (e : Nat)
deriving DecidableEq

/-- How a run of `Start` ends: aborted on credentials, returned cleanly,
crashed with a panic, or still looping when the script ran out. -/
inductive DriverOutcome where
  | aborted
  | returned
  | crashed
  | running
deriving DecidableEq

/-- Embedding of the `for` loop of `BasicBot.Start`, driven by a script
giving, for each iteration, whether `net.Dial` succeeds and the abstract
result of that iteration's `HandleChat` (`none` = clean `nil` return,
`some e` = read-failure error `e`).  Each iteration runs `Connect`, then
`JoinChannel`, then `HandleChat`.  When the dial failed, `bb.conn` is the
nil interface and `JoinChannel`'s first `bb.conn.Write` panics.  On a
`HandleChat` error the driver sleeps the fixed 1000 ms delay, prints the
error, and loops; on a `nil` result it returns. -/
def startLoop : List (Bool × Option Nat) → List DriverStep × DriverOutcome
  | [] => ([], .running)
  | (dialOk, hres) :: rest =>
    if dialOk then
      match hres with
      | none => ([.connectAttempt true, .joinWrite, .handle none], .returned)
      | some e =>
        let p := startLoop rest
        (DriverStep.connectAttempt true :: .joinWrite :: .handle (some e) ::
          .sleepRetry :: .reportError e :: p.1, p.2)
    else
      ([.connectAttempt false, .nilPanic], .crashed)

/-- Embedding of `BasicBot.Start`: first `ReadCredentials` (its result
abstracted as `credRes`); on error, print it, print `Aborting...`, and
return before any connection attempt.  Otherwise enter the reconnect
loop. -/
def startRun (credRes : Option Nat) (script : List (Bool × Option Nat)) :
    List DriverStep × DriverOutcome :=
  match credRes with
  | some e => ([.credFail e], .aborted)
  | none => startLoop script

/-- A chat-message line of the well-formed shape
`:user!ident@host.tmi.twitch.tv PRIVMSG #channel`, optionally followed by
` :body`.  Used only to state which inbound lines the extraction theorems
quantify over. -/
def mkChatLine (user ident host channel : List Char)
    (body : Option (List Char)) : List Char :=
  (':' :: user) ++ ('!' :: ident) ++ ('@' :: host) ++
    ".tmi.twitch.tv PRIVMSG #".toList ++ channel ++
    (match body with
     | none => []
     | some b => ' ' :: ':' :: b)

/-- The driver-step trace of one reconnect-loop iteration whose
`HandleChat` ends in read-failure error `e`: connect, the `JoinChannel`
writes, the failed session, the fixed 1000 ms sleep, and the error
report. -/
def errIterTrace (e : Nat) : List DriverStep :=
  [.connectAttempt true, .joinWrite, .handle (some e), .sleepRetry,
    .reportError e]

lemma expectChar_cons (c : Char) (r : List Char) :
    expectChar c (c :: r) = some r := by
  simp [expectChar]

lemma takeWordRun_append_cons (w : List Char) (d : Char) (r : List Char)
    (hw : ∀ x ∈ w, isWordChar x = true) (hd : isWordChar d = false) :
    takeWordRun (w ++ d :: r) = (w, d :: r) := by
  induction w with
  | nil => simp [takeWordRun, hd]
  | cons x xs ih =>
    have hx := hw x (List.mem_cons_self x xs)
    have := ih (fun y hy => hw y (List.mem_cons_of_mem x hy))
    simp [takeWordRun, hx, this]

lemma takeWordRun_all (w : List Char)
    (hw : ∀ x ∈ w, isWordChar x = true) :
    takeWordRun w = (w, []) := by
  induction w with
  | nil => rfl
  | cons x xs ih =>
    have hx := hw x (List.mem_cons_self x xs)
    have := ih (fun y hy => hw y (List.mem_cons_of_mem x hy))
    simp [takeWordRun, hx, this]

lemma stripLit_append (lit r : List Char) : stripLit lit (lit ++ r) = some r := by
  induction lit with
  | nil => rfl
  | cons c cs ih => simp [stripLit, ih]

/-- Reduction of `msgRegexFind` on any line with the well-formed spine
`:<u>!<i>@<h>.tmi.twitch.tv PRIVMSG #<c>` followed by a remainder that
does not start with a word character: the parse reaches `parseTail`. -/
lemma msgRegexFind_spine (u i h c rest : List Char)
    (hu : u ≠ []) (hwu : ∀ x ∈ u, isWordChar x = true)
    (hi : i ≠ []) (hwi : ∀ x ∈ i, isWordChar x = true)
    (hh : h ≠ []) (hwh : ∀ x ∈ h, isWordChar x = true)
    (hc : c ≠ []) (hwc : ∀ x ∈ c, isWordChar x = true)
    (hrest : ∀ d ∈ rest.head?, isWordChar d = false) :
    msgRegexFind ((':' :: u) ++ ('!' :: i) ++ ('@' :: h) ++
      ".tmi.twitch.tv PRIVMSG #".toList ++ c ++ rest) = parseTail u rest := by
  have hlit : (".tmi.twitch.tv PRIVMSG #".toList : List Char) =
      '.' :: "tmi.twitch.tv PRIVMSG #".toList := by decide
  have hbang : isWordChar '!' = false := by decide
  have hat : isWordChar '@' = false := by decide
  have hdot : isWordChar '.' = false := by decide
  rw [hlit]
  simp only [List.cons_append, List.append_assoc]
  rw [msgRegexFind, expectChar_cons]
  simp only [Option.some_bind]
  rw [takeWordRun_append_cons u '!' _ hwu hbang]
  simp only [hu, if_false, expectChar_cons, Option.some_bind]
  rw [takeWordRun_append_cons i '@' _ hwi hat]
  simp only [hi, if_false, expectChar_cons, Option.some_bind]
  rw [takeWordRun_append_cons h '.' _ hwh hdot]
  simp only [hh, if_false]
  rw [← List.cons_append, ← hlit, stripLit_append]
  simp only [Option.some_bind]
  rcases hr : rest with _ | ⟨d, r'⟩
  · rw [List.append_nil, takeWordRun_all c hwc]
    simp [hc]
  · have hd : isWordChar d = false := hrest d (by rw [hr]; rfl)
    rw [takeWordRun_append_cons c d r' hwc hd]
    simp [hc]

example :
    msgRegexFind ":abc!x@y.tmi.twitch.tv PRIVMSG #abc :!tbdown".toList =
      some ⟨"abc".toList, privmsgType, "!tbdown".toList⟩ := by decide

example :
    msgRegexFind ":abc!x@y.tmi.twitch.tv PRIVMSG #abc".toList =
      some ⟨"abc".toList, privmsgType, []⟩ := by decide

example : msgRegexFind pingLine = none := by decide

example : msgRegexFind ":abc!x@y.wrong.host PRIVMSG #abc :hi".toList = none := by
  decide

lemma splitCRLF_append (l rest : List Char) (hl : '\r' ∉ l) :
    splitCRLF (l ++ '\r' :: '\n' :: rest) = l :: splitCRLF rest := by
  induction l with
  | nil => simp [splitCRLF]
  | cons x l ih =>
    have hx : ¬ (x = '\r') := fun he => hl (by rw [he]; exact List.mem_cons_self _ _)
    have hl' : '\r' ∉ l := fun hm => hl (List.mem_cons_of_mem _ hm)
    cases l with
    | nil => simp [splitCRLF, hx, consHead]
    | cons y l2 =>
      have ih2 : splitCRLF (y :: (l2 ++ '\r' :: '\n' :: rest)) =
          (y :: l2) :: splitCRLF rest := by
        simpa using ih hl'
      simp [splitCRLF, hx, ih2, consHead]

lemma splitCRLF_line (l1 x rest : List Char) (h1 : '\r' ∉ l1) (hx : '\r' ∉ x) :
    splitCRLF (l1 ++ (x ++ ('\r' :: '\n' :: rest))) = (l1 ++ x) :: splitCRLF rest := by
  rw [← List.append_assoc]
  refine splitCRLF_append (l1 ++ x) rest ?_
  intro hm
  rcases List.mem_append.mp hm with hm1 | hm2
  · exact h1 hm1
  · exact hx hm2

lemma startLoop_retries (k e : Nat) :
    startLoop (List.replicate k (true, some e) ++ [(true, none)]) =
      ((List.replicate k (errIterTrace e)).flatten ++
        [DriverStep.connectAttempt true, .joinWrite, .handle none],
       DriverOutcome.returned) := by
  induction k with
  | zero => rfl
  | succ k ih =>
    rw [List.replicate_succ, List.cons_append, List.replicate_succ]
    simp only [startLoop, ih, List.flatten_cons, errIterTrace,
      List.cons_append, List.append_assoc, List.nil_append, if_true]

lemma startLoop_no_clean (script : List (Bool × Option Nat))
    (hs : ∀ x ∈ script, x.2 ≠ none) :
    (startLoop script).2 ≠ DriverOutcome.returned := by
  induction script with
  | nil => simp [startLoop]
  | cons x rest ih =>
    obtain ⟨b, r⟩ := x
    have hr : r ≠ none := hs (b, r) (List.mem_cons_self _ _)
    have ih2 := ih (fun y hy => hs y (List.mem_cons_of_mem _ hy))
    cases b
    · simp [startLoop]
    · cases r with
      | none => exact absurd rfl hr
      | some e => simpa [startLoop] using ih2

/-- C1: for every inbound line matching the chat-message pattern with
message type PRIVMSG, `HandleChat` writes the farewell line, performs
`Disconnect`, and returns `nil` (clean shutdown) if and only if the
extracted username equals the configured channel name (exact,
case-sensitive comparison) and the extracted body is exactly `!tbdown`;
for any other username or body the iteration has no shutdown effect and
the loop continues. -/
theorem handleChat_shutdown_iff (ch line u m : List Char)
    (hmatch : msgRegexFind line = some ⟨u, privmsgType, m⟩) :
    (handleChatStep ch (.ok line) =
        ([.writeConn (sayLine ch farewellMsg), .disconnectEv], .retNil) ↔
      (u = ch ∧ m = shutdownCmd)) ∧
    (¬ (u = ch ∧ m = shutdownCmd) →
      handleChatStep ch (.ok line) = ([.sleepMsg], .loop)) := by
  have hping : ¬ (line = pingLine) := by
    intro he
    rw [he] at hmatch
    have hnone : msgRegexFind pingLine = none := by decide
    rw [hnone] at hmatch
    exact Option.noConfusion hmatch
  by_cases huc : u = ch
  · by_cases hm : m = shutdownCmd
    · subst huc; subst hm
      simp [handleChatStep, hping, hmatch]
    · simp [handleChatStep, hping, hmatch, hm]
  · simp [handleChatStep, hping, hmatch, huc]

/-- Witness for C1: the channel owner's `!tbdown` message triggers the
farewell write, the disconnect, and the clean return. -/
theorem handleChat_shutdown_iff_witness :
    handleChatStep "abc".toList
        (.ok ":abc!x@y.tmi.twitch.tv PRIVMSG #abc :!tbdown".toList) =
      ([.writeConn (sayLine "abc".toList farewellMsg), .disconnectEv], .retNil) :=
  (handleChat_shutdown_iff "abc".toList
      ":abc!x@y.tmi.twitch.tv PRIVMSG #abc :!tbdown".toList
      "abc".toList shutdownCmd (by decide)).1.mpr ⟨rfl, rfl⟩

/-- C2 counterexample: `Disconnect` with no Connection Handle
(`bb.conn` is the nil interface) is a nil-interface method call, which
panics; it is not a no-op. -/
theorem disconnect_nil_not_noop :
    (disconnect none).1 = CallOutcome.panicked ∧
    disconnect none ≠ (CallOutcome.returned, none) := by
  decide

/-- C2 amended: when a Connection Handle exists, `Disconnect` returns
normally, and a second `Disconnect` right after also returns normally
with no error surfaced (the `Close` error is discarded); but `Disconnect`
with no Connection Handle panics rather than being a no-op. -/
theorem disconnect_second_call_ok (s : ConnState) :
    (disconnect (some s)).1 = CallOutcome.returned ∧
    (disconnect (disconnect (some s)).2).1 = CallOutcome.returned ∧
    (disconnect none).1 = CallOutcome.panicked := by
  cases s <;> decide

/-- C3: evaluation of the code at the failing input.  A failed dial
leaves `bb.conn` nil, and the driver then runs `JoinChannel`
unconditionally, whose first write to the nil connection panics — the
driver crashes instead of retrying under the fixed-delay policy. -/
theorem connect_failure_crashes_driver :
    (∀ cn, connect false cn = none) ∧
    startRun none [(false, none)] =
      ([DriverStep.connectAttempt false, DriverStep.nilPanic],
        DriverOutcome.crashed) := by
  exact ⟨fun cn => rfl, rfl⟩

/-- C4: for every well-formed chat-message line
`:user!ident@host.tmi.twitch.tv PRIVMSG #chan :body`, classification by
`msgRegex` extracts the username and body exactly as they appear; when
the optional trailing ` :body` segment is omitted, classification still
succeeds and the extracted body is the empty string. -/
theorem msgRegex_extracts_user_body (u i h c b : List Char)
    (hu : u ≠ []) (hwu : ∀ x ∈ u, isWordChar x = true)
    (hi : i ≠ []) (hwi : ∀ x ∈ i, isWordChar x = true)
    (hh : h ≠ []) (hwh : ∀ x ∈ h, isWordChar x = true)
    (hc : c ≠ []) (hwc : ∀ x ∈ c, isWordChar x = true)
    (hb : '\n' ∉ b) :
    msgRegexFind (mkChatLine u i h c (some b)) = some ⟨u, privmsgType, b⟩ ∧
    msgRegexFind (mkChatLine u i h c none) = some ⟨u, privmsgType, []⟩ := by
  constructor
  · rw [show mkChatLine u i h c (some b) =
        (':' :: u) ++ ('!' :: i) ++ ('@' :: h) ++
          ".tmi.twitch.tv PRIVMSG #".toList ++ c ++ (' ' :: ':' :: b) from rfl]
    rw [msgRegexFind_spine u i h c _ hu hwu hi hwi hh hwh hc hwc ?_]
    · simp [parseTail, expectChar_cons, hb]
    · intro d hd
      have : d = ' ' := by simpa using hd.symm
      rw [this]; decide
  · rw [show mkChatLine u i h c none =
        (':' :: u) ++ ('!' :: i) ++ ('@' :: h) ++
          ".tmi.twitch.tv PRIVMSG #".toList ++ c ++ [] from rfl]
    rw [msgRegexFind_spine u i h c [] hu hwu hi hwi hh hwh hc hwc ?_]
    · simp [parseTail]
    · intro d hd
      simp at hd

/-- Witness for C4 at a concrete well-formed line, with and without the
trailing body segment. -/
theorem msgRegex_extracts_user_body_witness :
    msgRegexFind (mkChatLine "user".toList "ident".toList "host".toList
        "chan".toList (some "hi there".toList)) =
      some ⟨"user".toList, privmsgType, "hi there".toList⟩ ∧
    msgRegexFind (mkChatLine "user".toList "ident".toList "host".toList
        "chan".toList none) =
      some ⟨"user".toList, privmsgType, []⟩ :=
  msgRegex_extracts_user_body "user".toList "ident".toList "host".toList
    "chan".toList "hi there".toList (by decide) (by decide) (by decide)
    (by decide) (by decide) (by decide) (by decide) (by decide) (by decide)

/-- C5: the exact line `PING :tmi.twitch.tv` makes the loop write the
exact reply `PONG: tmi.twitch.tv` with CRLF and continue, with no
per-message rate-limit sleep in the iteration. -/
theorem ping_pong_no_delay (ch : List Char) :
    handleChatStep ch (.ok pingLine) = ([.writeConn pongBytes], .loop) ∧
    Event.sleepMsg ∉ (handleChatStep ch (.ok pingLine)).1 := by
  refine ⟨by simp [handleChatStep], ?_⟩
  simp [handleChatStep]

/-- C6: `Say` of the empty message fails with the empty-message error and
writes nothing; `Say` of a non-empty message writes exactly the single
line `PRIVMSG #<channel> <msg>` with CRLF, and any transport write error
is returned to the caller unchanged, with no retry. -/
theorem say_contract :
    (∀ ch w, say ch [] w = ([], some SayOutcome.emptyMessage)) ∧
    (∀ ch m w, m ≠ [] →
      say ch m w = ([sayLine ch m], w.map SayOutcome.transport)) := by
  constructor
  · intro ch w; rfl
  · intro ch m w hm; simp [say, hm]

/-- Witness for C6: a non-empty message with a failing write returns the
transport error unchanged after the single write. -/
theorem say_contract_witness :
    say "chan".toList "hello".toList (some 7) =
      ([sayLine "chan".toList "hello".toList], some (SayOutcome.transport 7)) :=
  say_contract.2 "chan".toList "hello".toList (some 7) (by decide)

/-- C7: `JoinChannel` puts exactly three CRLF-terminated protocol lines
on the wire, in the strict order `PASS <secret>`, `NICK <name>`,
`JOIN #<channel>` (the trailing `[]` is the empty remainder after the
final CRLF). -/
theorem joinChannel_three_lines (p n c : List Char)
    (hp : '\r' ∉ p) (hn : '\r' ∉ n) (hc : '\r' ∉ c) :
    splitCRLF (joinChannelWrites p n c).flatten =
      ["PASS ".toList ++ p, "NICK ".toList ++ n, "JOIN #".toList ++ c, []] := by
  have hcrlf : ("\r\n".toList : List Char) = '\r' :: '\n' :: [] := by decide
  simp only [joinChannelWrites, List.flatten_cons, List.flatten_nil,
    List.append_nil, hcrlf, List.append_assoc, List.cons_append,
    List.nil_append]
  rw [splitCRLF_line "PASS ".toList p _ (by decide) hp,
    splitCRLF_line "NICK ".toList n _ (by decide) hn,
    splitCRLF_line "JOIN #".toList c _ (by decide) hc]
  rfl

/-- Witness for C7 at concrete credentials and channel. -/
theorem joinChannel_three_lines_witness :
    splitCRLF (joinChannelWrites "secret".toList "bot".toList
        "chan".toList).flatten =
      ["PASS ".toList ++ "secret".toList, "NICK ".toList ++ "bot".toList,
        "JOIN #".toList ++ "chan".toList, []] :=
  joinChannel_three_lines "secret".toList "bot".toList "chan".toList
    (by decide) (by decide) (by decide)

/-- C8: on a read failure `HandleChat` disconnects and returns an error;
the driver then sleeps the fixed delay, reports the error, and reruns
Connect, JoinChannel and the read loop, for any number of consecutive
failures, and `Start` returns normally only from a clean (error-free)
`HandleChat`. -/
theorem read_error_disconnect_and_retry (k e : Nat) :
    (∀ ch, handleChatStep ch .err = ([.disconnectEv], .retErr)) ∧
    startRun none (List.replicate k (true, some e) ++ [(true, none)]) =
      ((List.replicate k (errIterTrace e)).flatten ++
        [DriverStep.connectAttempt true, .joinWrite, .handle none],
       DriverOutcome.returned) ∧
    (∀ script, (∀ x ∈ script, x.2 ≠ none) →
      (startLoop script).2 ≠ DriverOutcome.returned) := by
  refine ⟨fun ch => rfl, startLoop_retries k e, ?_⟩
  intro script hs
  exact startLoop_no_clean script hs

/-- Witness for C8: one failed session followed by a clean one, and a
script with no clean session never makes `Start` return. -/
theorem read_error_disconnect_and_retry_witness :
    startRun none (List.replicate 1 (true, some 5) ++ [(true, none)]) =
      ((List.replicate 1 (errIterTrace 5)).flatten ++
        [DriverStep.connectAttempt true, .joinWrite, .handle none],
       DriverOutcome.returned) ∧
    (startLoop [(true, some 5)]).2 ≠ DriverOutcome.returned :=
  ⟨(read_error_disconnect_and_retry 1 5).2.1,
    (read_error_disconnect_and_retry 1 5).2.2 [(true, some 5)] (by decide)⟩

/-- C9: when loading credentials fails, `Start` reports the error and
returns before any connection attempt: the run trace is exactly the
reported credential failure, with no Connect, no JoinChannel write, and
no read loop. -/
theorem credential_failure_aborts (e : Nat)
    (script : List (Bool × Option Nat)) :
    startRun (some e) script = ([DriverStep.credFail e], DriverOutcome.aborted) ∧
    (∀ b, DriverStep.connectAttempt b ∉ (startRun (some e) script).1) ∧
    DriverStep.joinWrite ∉ (startRun (some e) script).1 ∧
    (∀ r, DriverStep.handle r ∉ (startRun (some e) script).1) := by
  refine ⟨rfl, ?_, ?_, ?_⟩ <;> simp [startRun]

/-- C10: `ReadCredentials` succeeds when the file is read but JSON
decoding yields only end-of-file, leaving the credentials at the zero
value with an empty password; an error is returned exactly for a
file-read failure or a non-EOF decode failure. -/
theorem readCredentials_eof_success :
    (∀ contents dec, dec contents = DecodeResult.eof →
      readCredentials (.ok contents) dec = (none, some ⟨[]⟩)) ∧
    (∀ fr dec, (readCredentials fr dec).1 ≠ none ↔
      ((∃ e, fr = .error e) ∨ (∃ c e, fr = .ok c ∧ dec c = .fail e))) := by
  constructor
  · intro contents dec hdec
    simp [readCredentials, hdec]
  · intro fr dec
    cases fr with
    | error e => simp [readCredentials]
    | ok c =>
      cases hdec : dec c with
      | ok pw => simp [readCredentials, hdec]
      | eof => simp [readCredentials, hdec]
      | fail e => simp [readCredentials, hdec]

/-- Witness for C10: decoding an empty file yields bare EOF and
`ReadCredentials` returns no error with an empty password. -/
theorem readCredentials_eof_success_witness :
    readCredentials (.ok []) (fun _ => DecodeResult.eof) = (none, some ⟨[]⟩) :=
  readCredentials_eof_success.1 [] (fun _ => DecodeResult.eof) rfl

end TwitchBot
